import Mathlib

/-!
Shallow embedding of the `Arc<T>` implementation in `src/arc.rs` and
`src/arcdata.rs`.

The Rust code is a hand-rolled atomically reference-counted pointer:

* `ArcData<T> { refs: AtomicUsize, data: T }` with `ArcData::new` setting
  `refs` to 1;
* `Arc::new` heap-allocates an `ArcData` (refs = 1);
* `Deref` returns `&self.data().data`;
* `Arc::ref_count` is a relaxed load of `refs`;
* `Arc::get_mut` relaxed-loads `refs`; if it is 1 it issues an acquire fence
  and returns `Some(&mut data)`, otherwise `None`;
* `Clone` does `refs.fetch_add(1, Relaxed)` and calls `std::process::abort()`
  if the pre-increment value exceeds `usize::MAX / 3`;
* `Drop` does `refs.fetch_sub(1, Release)`; if the pre-decrement value was 1
  it issues an acquire fence and frees the `ArcData` box.

We model the single shared record as a state containing the `ArcData` fields
(the counter is a `Nat` reduced modulo `2 ^ 64`, the width of `usize` on the
target) together with two ghost fields used only to state specifications:
`live`, the number of currently-live `Arc` handles aliasing the record, and
`freeCount`, the number of times the backing record has been deallocated.
A process abort (the clone overflow guard) is modelled as `Option.none`:
an aborted process has no further observable states.

Sequential traces of handle operations are modelled by `runOps`: each
`clone`/`drop` step requires at least one live handle (in Rust an operation
can only be invoked through an existing handle), mirroring interleavings of
the program after full synchronization.

The memory-ordering structure of the operations (which atomic accesses with
which `Ordering`, where the fences sit, where deallocation happens) is
embedded as explicit event lists (`Arc.dropEvents`, `Arc.get_mutEvents`, ...)
traced from the same source lines, with `MemEvent.apply` giving each event
its effect on the record fields.
-/

/-- Number of values of the 64-bit `usize` type: counter arithmetic in the
source wraps modulo this. -/
def usizeSize : Nat := 2 ^ 64

/-- `usize::MAX`. -/
def usizeMax : Nat := usizeSize - 1

/-- The shared record, from `ArcData<T>` in `src/arcdata.rs`: an atomic
reference counter paired with the payload. -/
structure ArcData (T : Type) where
  refs : Nat
  data : T
  deriving DecidableEq, Repr

/-- `ArcData::new`: initial reference count 1. -/
def ArcData.new {T : Type} (data : T) : ArcData T :=
  { refs := 1, data := data }

/-- State of one shared record together with ghost instrumentation:
`record` holds the `ArcData` fields, `live` counts the currently-live `Arc`
handles aliasing it, `freeCount` counts how many times the backing box has
been deallocated. -/
structure ArcState (T : Type) where
  record : ArcData T
  live : Nat
  freeCount : Nat
  deriving DecidableEq, Repr

/-- `Arc::new`: allocates a fresh record with count 1 holding the payload and
returns the first (hence only) handle to it. -/
def Arc.new {T : Type} (data : T) : ArcState T :=
  { record := ArcData.new data, live := 1, freeCount := 0 }

/-- `Deref for Arc`: a shared read of the payload. -/
def Arc.deref {T : Type} (s : ArcState T) : T :=
  s.record.data

/-- `Arc::ref_count`: a relaxed load of the counter. -/
def Arc.ref_count {T : Type} (s : ArcState T) : Nat :=
  s.record.refs

/-- `Arc::get_mut`: relaxed-load the counter; if it is exactly 1, acquire
fence and return the (mutably borrowable) payload, else `none`. -/
def Arc.get_mut {T : Type} (s : ArcState T) : Option T :=
  if s.record.refs = 1 then some s.record.data else none

/-- Writing `v` through the mutable reference returned by `get_mut`
(`*x = v` in the caller). -/
def Arc.set {T : Type} (s : ArcState T) (v : T) : ArcState T :=
  { s with record := { s.record with data := v } }

/-- `Clone for Arc`: `refs.fetch_add(1, Relaxed)`, then
`std::process::abort()` when the pre-increment value exceeds
`usize::MAX / 3`. The abort is modelled as `none` (the process dies, so no
state survives); otherwise a new handle aliasing the same record is
returned, so `live` grows by one. -/
def Arc.clone {T : Type} (s : ArcState T) : Option (ArcState T) :=
  if usizeMax / 3 < s.record.refs then none
  else
    some { s with
            record := { s.record with refs := (s.record.refs + 1) % usizeSize },
            live := s.live + 1 }

/-- `Drop for Arc`: `refs.fetch_sub(1, Release)` (wrapping, hence the
`+ usizeMax` modulo `usizeSize`, which is subtraction of 1 modulo `2 ^ 64`);
when the pre-decrement value was exactly 1, acquire fence and deallocate the
record (`freeCount` grows by one). The dropped handle itself is consumed, so
`live` shrinks by one. -/
def Arc.drop {T : Type} (s : ArcState T) : ArcState T :=
  let s2 : ArcState T :=
    { s with
        record := { s.record with refs := (s.record.refs + usizeMax) % usizeSize },
        live := s.live - 1 }
  if s.record.refs = 1 then { s2 with freeCount := s2.freeCount + 1 } else s2

/-- A handle operation invoked somewhere in the program. -/
inductive ArcOp : Type
  | clone : ArcOp
  | drop : ArcOp
  deriving DecidableEq, Repr

/-- Runs a sequence of clone/drop operations on a record. An operation can
only be invoked through a currently-live handle, so a step with `live = 0`
is impossible (`none`); a clone that hits the overflow guard aborts the
process (`none`: no final state exists). -/
def runOps {T : Type} : List ArcOp → ArcState T → Option (ArcState T)
  | [], s => some s
  | op :: rest, s =>
    if s.live = 0 then none
    else
      match op with
      | ArcOp.clone =>
        match Arc.clone s with
        | none => none
        | some s2 => runOps rest s2
      | ArcOp.drop => runOps rest (Arc.drop s)

/-- Rust atomic memory orderings used by the source. -/
inductive MemOrdering : Type
  | Relaxed : MemOrdering
  | Release : MemOrdering
  | Acquire : MemOrdering
  deriving DecidableEq, Repr

/-- One memory event on the shared record, labelled with the ordering the
source requests: atomic loads and read-modify-writes of `refs` (recording
the value read), fences, a plain read of the payload, and the deallocation
of the record. -/
inductive MemEvent : Type
  | load (ord : MemOrdering) (val : Nat) : MemEvent
  | fetch_add (ord : MemOrdering) (pre : Nat) : MemEvent
  | fetch_sub (ord : MemOrdering) (pre : Nat) : MemEvent
  | fence (ord : MemOrdering) : MemEvent
  | readData : MemEvent
  | freeRecord : MemEvent
  deriving DecidableEq, Repr

/-- Effect of a memory event on the record fields: only the
read-modify-writes change anything; loads, fences and plain reads are pure
observations. -/
def MemEvent.apply {T : Type} (r : ArcData T) : MemEvent → ArcData T
  | MemEvent.fetch_add _ _ => { r with refs := (r.refs + 1) % usizeSize }
  | MemEvent.fetch_sub _ _ => { r with refs := (r.refs + usizeMax) % usizeSize }
  | _ => r

/-- Folds the effects of a list of memory events over the record. -/
def runEvents {T : Type} (r : ArcData T) (es : List MemEvent) : ArcData T :=
  es.foldl MemEvent.apply r

/-- Memory events of `Deref for Arc`: one plain read of the payload. -/
def Arc.derefEvents : List MemEvent :=
  [MemEvent.readData]

/-- Memory events of `Arc::ref_count`: one relaxed load of the counter. -/
def Arc.ref_countEvents {T : Type} (s : ArcState T) : List MemEvent :=
  [MemEvent.load MemOrdering.Relaxed s.record.refs]

/-- Memory events of `Arc::get_mut`: a relaxed load of the counter; when it
reads 1, an acquire fence and then the read of the payload behind the
returned reference. -/
def Arc.get_mutEvents {T : Type} (s : ArcState T) : List MemEvent :=
  if s.record.refs = 1 then
    [MemEvent.load MemOrdering.Relaxed s.record.refs,
     MemEvent.fence MemOrdering.Acquire,
     MemEvent.readData]
  else
    [MemEvent.load MemOrdering.Relaxed s.record.refs]

/-- Memory events of `Drop for Arc`: a release `fetch_sub(1)`; when the
pre-decrement value was 1, a stand-alone acquire fence followed by the
deallocation of the record. -/
def Arc.dropEvents {T : Type} (s : ArcState T) : List MemEvent :=
  if s.record.refs = 1 then
    [MemEvent.fetch_sub MemOrdering.Release s.record.refs,
     MemEvent.fence MemOrdering.Acquire,
     MemEvent.freeRecord]
  else
    [MemEvent.fetch_sub MemOrdering.Release s.record.refs]

/-- The reachability invariant of a record state: the counter agrees with
the number of live handles, the counter fits in `usize`, and the record has
either never been freed or been freed exactly once with no handle left. -/
def ArcInv {T : Type} (s : ArcState T) : Prop :=
  s.record.refs = s.live ∧ s.record.refs < usizeSize ∧
    (s.freeCount = 0 ∨ (s.freeCount = 1 ∧ s.live = 0))

theorem usizeMax_add_one : usizeMax + 1 = usizeSize := by
  decide

theorem thr_succ_lt : usizeMax / 3 + 1 < usizeSize := by
  decide

/-- Decrementing modulo `2 ^ 64` is plain subtraction of 1 on a counter in
range `[1, 2^64)`. -/
theorem sub_one_mod (n : Nat) (h1 : 1 ≤ n) (h2 : n < usizeSize) :
    (n + usizeMax) % usizeSize = n - 1 := by
  have hrw : n + usizeMax = (n - 1) + (usizeMax + 1) := by omega
  rw [hrw, usizeMax_add_one, Nat.add_mod_right, Nat.mod_eq_of_lt (by omega)]

/-- Characterization of a successful clone. -/
theorem clone_eq_some {T : Type} {s s2 : ArcState T}
    (h : Arc.clone s = some s2) :
    s.record.refs ≤ usizeMax / 3 ∧
      s2 = { s with
              record := { s.record with refs := s.record.refs + 1 },
              live := s.live + 1 } := by
  unfold Arc.clone at h
  by_cases hc : usizeMax / 3 < s.record.refs
  · simp [hc] at h
  · have hle : s.record.refs ≤ usizeMax / 3 := Nat.le_of_not_lt hc
    have hlt : s.record.refs + 1 < usizeSize := by
      have := thr_succ_lt
      omega
    have hmod : (s.record.refs + 1) % usizeSize = s.record.refs + 1 :=
      Nat.mod_eq_of_lt hlt
    simp [hc, hmod] at h
    exact ⟨hle, h.symm⟩

/-- The clone guard fires exactly when the pre-increment counter exceeds
`usize::MAX / 3`. -/
theorem clone_eq_none_iff {T : Type} (s : ArcState T) :
    Arc.clone s = none ↔ usizeMax / 3 < s.record.refs := by
  unfold Arc.clone
  by_cases hc : usizeMax / 3 < s.record.refs <;> simp [hc]

/-- Explicit form of `Arc.drop` on a counter in range. -/
theorem drop_eq {T : Type} (s : ArcState T) (h1 : 1 ≤ s.record.refs)
    (h2 : s.record.refs < usizeSize) :
    Arc.drop s =
      if s.record.refs = 1 then
        { s with record := { s.record with refs := 0 },
                 live := s.live - 1, freeCount := s.freeCount + 1 }
      else
        { s with record := { s.record with refs := s.record.refs - 1 },
                 live := s.live - 1 } := by
  unfold Arc.drop
  rw [sub_one_mod s.record.refs h1 h2]
  by_cases hc : s.record.refs = 1 <;> simp [hc]

/-- A clone performed through a live handle preserves the invariant. -/
theorem clone_inv {T : Type} {s s1 : ArcState T} (hs : ArcInv s)
    (hl : s.live ≠ 0) (h : Arc.clone s = some s1) : ArcInv s1 := by
  obtain ⟨hthr, hs1⟩ := clone_eq_some h
  subst hs1
  obtain ⟨⟨r, dd⟩, l, f⟩ := s
  obtain ⟨h1, h2, h3⟩ := hs
  have hstep := thr_succ_lt
  simp only [ArcInv] at *
  refine ⟨by omega, by omega, ?_⟩
  left
  rcases h3 with h3 | ⟨_, hl0⟩
  · simpa using h3
  · exact absurd hl0 (by simpa using hl)

/-- A drop performed through a live handle preserves the invariant. -/
theorem drop_inv {T : Type} {s : ArcState T} (hs : ArcInv s)
    (hl : s.live ≠ 0) : ArcInv (Arc.drop s) := by
  obtain ⟨h1, h2, h3⟩ := hs
  have hge : 1 ≤ s.record.refs := by omega
  rw [drop_eq s hge h2]
  obtain ⟨⟨r, dd⟩, l, f⟩ := s
  simp only at h1 h2 hl ⊢
  have hf0 : f = 0 := by
    rcases h3 with h3 | ⟨_, hl0⟩
    · simpa using h3
    · exact absurd hl0 (by simpa using hl)
  by_cases hc : r = 1
  · simp only [hc, if_true, ArcInv]
    exact ⟨by omega, by omega, Or.inr ⟨by omega, by omega⟩⟩
  · simp only [hc, if_false, ArcInv]
    exact ⟨by omega, by omega, Or.inl (by omega)⟩

/-- The invariant is preserved by any valid run. -/
theorem runOps_inv {T : Type} (ops : List ArcOp) (s s2 : ArcState T)
    (hs : ArcInv s) (h : runOps ops s = some s2) : ArcInv s2 := by
  induction ops generalizing s with
  | nil =>
    simp [runOps] at h
    rw [← h]
    exact hs
  | cons op rest ih =>
    simp only [runOps] at h
    by_cases hl : s.live = 0
    · simp [hl] at h
    · simp only [hl, if_false] at h
      match op with
      | ArcOp.clone =>
        cases hcl : Arc.clone s with
        | none => rw [hcl] at h; exact absurd h (by simp)
        | some s1 =>
          rw [hcl] at h
          exact ih s1 (clone_inv hs hl hcl) h
      | ArcOp.drop =>
        exact ih (Arc.drop s) (drop_inv hs hl) h

/-- The freshly constructed state satisfies the invariant. -/
theorem arcNew_inv {T : Type} (d : T) : ArcInv (Arc.new d) := by
  refine ⟨rfl, ?_, Or.inl rfl⟩
  show (1 : Nat) < usizeSize
  norm_num [usizeSize]

/-- Every state reachable from `Arc.new` satisfies the invariant. -/
theorem reach_inv {T : Type} (d : T) (ops : List ArcOp) (s : ArcState T)
    (h : runOps ops (Arc.new d) = some s) : ArcInv s :=
  runOps_inv ops (Arc.new d) s (arcNew_inv d) h

/-- Claim C1: in every valid sequence of construct/clone/drop operations,
the record's counter always equals the number of currently-live handles:
construction initialises it to 1, each successful clone increases counter
and handle count by exactly 1, and each drop decreases both by exactly 1,
so `ref_count` returns exactly the number of live handles. -/
theorem c1_count_eq_live {T : Type} (d : T) (ops : List ArcOp)
    (s u u2 w : ArcState T)
    (h : runOps ops (Arc.new d) = some s)
    (hc : Arc.clone u = some u2)
    (hw1 : 1 ≤ w.record.refs) (hw2 : w.record.refs < usizeSize) :
    Arc.ref_count s = s.live ∧
    Arc.ref_count (Arc.new d) = 1 ∧
    (Arc.ref_count u2 = Arc.ref_count u + 1 ∧ u2.live = u.live + 1) ∧
    (Arc.ref_count (Arc.drop w) = Arc.ref_count w - 1 ∧
      (Arc.drop w).live = w.live - 1) := by
  obtain ⟨h1, -, -⟩ := reach_inv d ops s h
  obtain ⟨-, hu2⟩ := clone_eq_some hc
  subst hu2
  refine ⟨h1, rfl, ⟨rfl, rfl⟩, ?_⟩
  rw [drop_eq w hw1 hw2]
  by_cases hcw : w.record.refs = 1
  · simp [Arc.ref_count, hcw]
  · simp [Arc.ref_count, hcw]

theorem c1_count_eq_live_witness :
    Arc.ref_count (⟨⟨2, 0⟩, 2, 0⟩ : ArcState Nat) =
        (⟨⟨2, 0⟩, 2, 0⟩ : ArcState Nat).live ∧
    Arc.ref_count (Arc.new (0 : Nat)) = 1 ∧
    (Arc.ref_count (⟨⟨3, 0⟩, 3, 0⟩ : ArcState Nat) =
        Arc.ref_count (⟨⟨2, 0⟩, 2, 0⟩ : ArcState Nat) + 1 ∧
      (⟨⟨3, 0⟩, 3, 0⟩ : ArcState Nat).live =
        (⟨⟨2, 0⟩, 2, 0⟩ : ArcState Nat).live + 1) ∧
    (Arc.ref_count (Arc.drop (⟨⟨2, 0⟩, 2, 0⟩ : ArcState Nat)) =
        Arc.ref_count (⟨⟨2, 0⟩, 2, 0⟩ : ArcState Nat) - 1 ∧
      (Arc.drop (⟨⟨2, 0⟩, 2, 0⟩ : ArcState Nat)).live =
        (⟨⟨2, 0⟩, 2, 0⟩ : ArcState Nat).live - 1) :=
  c1_count_eq_live 0 [ArcOp.clone] ⟨⟨2, 0⟩, 2, 0⟩ ⟨⟨2, 0⟩, 2, 0⟩
    ⟨⟨3, 0⟩, 3, 0⟩ ⟨⟨2, 0⟩, 2, 0⟩ (by decide) (by decide) (by decide)
    (by decide)

/-- Claim C2: on any reachable state, `get_mut` returns `some` if and only
if the counter is exactly 1, the counter is 1 exactly when exactly one
handle is live, and whenever more than one handle is live `get_mut` returns
the ordinary negative outcome `none`. -/
theorem c2_get_mut_iff {T : Type} (d : T) (ops : List ArcOp) (s : ArcState T)
    (h : runOps ops (Arc.new d) = some s) :
    ((Arc.get_mut s).isSome ↔ Arc.ref_count s = 1) ∧
    (Arc.ref_count s = 1 ↔ s.live = 1) ∧
    (1 < s.live → Arc.get_mut s = none) := by
  obtain ⟨h1, -, -⟩ := reach_inv d ops s h
  unfold Arc.get_mut Arc.ref_count
  by_cases hc : s.record.refs = 1
  · simp [hc, ← h1]
  · simp [hc]
    omega

theorem c2_get_mut_iff_witness :
    ((Arc.get_mut (⟨⟨2, 0⟩, 2, 0⟩ : ArcState Nat)).isSome ↔
        Arc.ref_count (⟨⟨2, 0⟩, 2, 0⟩ : ArcState Nat) = 1) ∧
    (Arc.ref_count (⟨⟨2, 0⟩, 2, 0⟩ : ArcState Nat) = 1 ↔
        (⟨⟨2, 0⟩, 2, 0⟩ : ArcState Nat).live = 1) ∧
    (1 < (⟨⟨2, 0⟩, 2, 0⟩ : ArcState Nat).live →
        Arc.get_mut (⟨⟨2, 0⟩, 2, 0⟩ : ArcState Nat) = none) :=
  c2_get_mut_iff 0 [ArcOp.clone] ⟨⟨2, 0⟩, 2, 0⟩ (by decide)

/-- Claim C5: `Arc.new` builds a record whose counter is 1 and whose payload
is the given value (one live handle, nothing freed), and `deref` on any
handle state is total and returns the record's payload. -/
theorem c5_new_and_deref {T : Type} (d : T) (s : ArcState T) :
    Arc.ref_count (Arc.new d) = 1 ∧ (Arc.new d).record.data = d ∧
    (Arc.new d).live = 1 ∧ (Arc.new d).freeCount = 0 ∧
    Arc.deref (Arc.new d) = d ∧ Arc.deref s = s.record.data :=
  ⟨rfl, rfl, rfl, rfl, rfl, rfl⟩

/-- Claim C7: a write performed through a successful `get_mut` result is
seen by a subsequent `deref` on the same handle, and it does not disturb the
counter. -/
theorem c7_write_then_read {T : Type} (s : ArcState T) (x v : T)
    (_h : Arc.get_mut s = some x) :
    Arc.deref (Arc.set s v) = v ∧
    Arc.ref_count (Arc.set s v) = Arc.ref_count s :=
  ⟨rfl, rfl⟩

theorem c7_write_then_read_witness :
    Arc.deref (Arc.set (Arc.new (0 : Nat)) 42) = 42 ∧
    Arc.ref_count (Arc.set (Arc.new (0 : Nat)) 42) =
      Arc.ref_count (Arc.new (0 : Nat)) :=
  c7_write_then_read (Arc.new 0) 0 42 (by decide)

/-- Claim C9: the memory events of `deref`, `ref_count` and `get_mut`
(in both its `some` and `none` outcomes) contain no write to the record:
replaying them leaves the counter and the payload exactly as they were. -/
theorem c9_observers_pure {T : Type} (s : ArcState T) :
    runEvents s.record Arc.derefEvents = s.record ∧
    runEvents s.record (Arc.ref_countEvents s) = s.record ∧
    runEvents s.record (Arc.get_mutEvents s) = s.record ∧
    (Arc.get_mut s = none → runEvents s.record (Arc.get_mutEvents s) = s.record) := by
  refine ⟨rfl, rfl, ?_, fun _ => ?_⟩ <;>
  · unfold Arc.get_mutEvents
    by_cases hc : s.record.refs = 1 <;> simp [hc, runEvents, MemEvent.apply]

/-- Claim C3: the record is deallocated exactly once, triggered only by the
counter's 1-to-0 transition: every reachable state has been freed at most
once, a drop increments the deallocation count exactly when it observes a
pre-decrement counter of 1, every other drop leaves it untouched, and from a
freed state no further operation can run (Freed is terminal). -/
theorem c3_free_exactly_once {T : Type} (d d2 : T) (ops ops2 : List ArcOp)
    (s s3 u : ArcState T) (op : ArcOp) (rest : List ArcOp)
    (h : runOps ops (Arc.new d) = some s)
    (h2 : runOps ops2 (Arc.new d2) = some s3) (hfr : 1 ≤ s3.freeCount)
    (hu1 : 1 ≤ u.record.refs) (hu2 : u.record.refs < usizeSize) :
    s.freeCount ≤ 1 ∧
    ((Arc.drop u).freeCount = u.freeCount + 1 ↔ u.record.refs = 1) ∧
    (u.record.refs ≠ 1 → (Arc.drop u).freeCount = u.freeCount) ∧
    runOps (op :: rest) s3 = none := by
  obtain ⟨-, -, hfc⟩ := reach_inv d ops s h
  obtain ⟨-, -, hfc3⟩ := reach_inv d2 ops2 s3 h2
  have hl3 : s3.live = 0 := by
    rcases hfc3 with hfc3 | ⟨-, hl0⟩
    · omega
    · exact hl0
  refine ⟨by omega, ?_, ?_, ?_⟩
  · rw [drop_eq u hu1 hu2]
    by_cases hcu : u.record.refs = 1
    · simp [hcu]
    · simp [hcu]
  · intro hcu
    rw [drop_eq u hu1 hu2]
    simp [hcu]
  · simp [runOps, hl3]

theorem c3_free_exactly_once_witness :
    (Arc.new (0 : Nat)).freeCount ≤ 1 ∧
    ((Arc.drop (⟨⟨1, 5⟩, 1, 0⟩ : ArcState Nat)).freeCount =
        (⟨⟨1, 5⟩, 1, 0⟩ : ArcState Nat).freeCount + 1 ↔
      (⟨⟨1, 5⟩, 1, 0⟩ : ArcState Nat).record.refs = 1) ∧
    ((⟨⟨1, 5⟩, 1, 0⟩ : ArcState Nat).record.refs ≠ 1 →
      (Arc.drop (⟨⟨1, 5⟩, 1, 0⟩ : ArcState Nat)).freeCount =
        (⟨⟨1, 5⟩, 1, 0⟩ : ArcState Nat).freeCount) ∧
    runOps [ArcOp.clone] (⟨⟨0, 0⟩, 0, 1⟩ : ArcState Nat) = none :=
  c3_free_exactly_once 0 0 [] [ArcOp.drop] (Arc.new 0) ⟨⟨0, 0⟩, 0, 1⟩
    ⟨⟨1, 5⟩, 1, 0⟩ ArcOp.clone [] (by decide) (by decide) (by decide)
    (by decide) (by decide)

/-- Claim C4: clone aborts the process (modelled as `none`, never a
recoverable error value) exactly when the pre-increment counter exceeds the
defensive threshold `usize::MAX / 3`; below the threshold it increments the
counter by one and yields one more live handle aliasing the same record with
the same payload. -/
theorem c4_clone_guard {T : Type} (s u : ArcState T)
    (hu : u.record.refs ≤ usizeMax / 3) :
    (Arc.clone s = none ↔ usizeMax / 3 < s.record.refs) ∧
    Arc.clone u = some { u with
                          record := { u.record with refs := u.record.refs + 1 },
                          live := u.live + 1 } := by
  refine ⟨clone_eq_none_iff s, ?_⟩
  have hlt : u.record.refs + 1 < usizeSize := by
    have := thr_succ_lt
    omega
  unfold Arc.clone
  simp [Nat.not_lt.mpr hu, Nat.mod_eq_of_lt hlt]

theorem c4_clone_guard_witness :
    (Arc.clone (⟨⟨1, 5⟩, 1, 0⟩ : ArcState Nat) = none ↔
        usizeMax / 3 < (⟨⟨1, 5⟩, 1, 0⟩ : ArcState Nat).record.refs) ∧
    Arc.clone (⟨⟨1, 5⟩, 1, 0⟩ : ArcState Nat) = some ⟨⟨2, 5⟩, 2, 0⟩ :=
  c4_clone_guard ⟨⟨1, 5⟩, 1, 0⟩ ⟨⟨1, 5⟩, 1, 0⟩ (by decide)

/-- Claim C6: the concrete sequential scenario: construct from payload 0,
clone twice (counter 3), drop the two clones (counter 1), `get_mut` now
succeeds, writing 42 through it makes `deref` yield 42, and the final drop
deallocates the record (and hence destroys the payload) exactly once. -/
theorem c6_scenario :
    runOps [ArcOp.clone, ArcOp.clone] (Arc.new (0 : Nat)) =
        some ⟨⟨3, 0⟩, 3, 0⟩ ∧
    Arc.ref_count (⟨⟨3, 0⟩, 3, 0⟩ : ArcState Nat) = 3 ∧
    runOps [ArcOp.drop, ArcOp.drop] (⟨⟨3, 0⟩, 3, 0⟩ : ArcState Nat) =
        some ⟨⟨1, 0⟩, 1, 0⟩ ∧
    Arc.ref_count (⟨⟨1, 0⟩, 1, 0⟩ : ArcState Nat) = 1 ∧
    Arc.get_mut (⟨⟨1, 0⟩, 1, 0⟩ : ArcState Nat) = some 0 ∧
    Arc.set (⟨⟨1, 0⟩, 1, 0⟩ : ArcState Nat) 42 = ⟨⟨1, 42⟩, 1, 0⟩ ∧
    Arc.deref (⟨⟨1, 42⟩, 1, 0⟩ : ArcState Nat) = 42 ∧
    Arc.drop (⟨⟨1, 42⟩, 1, 0⟩ : ArcState Nat) = ⟨⟨0, 42⟩, 0, 1⟩ := by
  decide

/-- Claim C8: the events of `Drop for Arc` start with a release-ordered
decrement of the counter recording the pre-decrement value; the record is
deallocated exactly when that value is 1; wherever the deallocation occurs,
a stand-alone acquire fence precedes it; and replaying the events reproduces
the state-level effect of `Arc.drop` on the record. -/
theorem c8_drop_release_acquire {T : Type} (s : ArcState T) :
    (∃ rest, Arc.dropEvents s =
        MemEvent.fetch_sub MemOrdering.Release s.record.refs :: rest) ∧
    (MemEvent.freeRecord ∈ Arc.dropEvents s ↔ s.record.refs = 1) ∧
    (∀ l r, Arc.dropEvents s = l ++ MemEvent.freeRecord :: r →
        MemEvent.fence MemOrdering.Acquire ∈ l) ∧
    runEvents s.record (Arc.dropEvents s) = (Arc.drop s).record := by
  unfold Arc.dropEvents
  by_cases hc : s.record.refs = 1
  · simp only [hc, if_true]
    refine ⟨⟨_, rfl⟩, by simp, ?_, ?_⟩
    · intro l r hlr
      match l with
      | [] => simp at hlr
      | [_] => simp at hlr
      | [x, y] =>
        simp at hlr
        simp [hlr.2.1]
      | _ :: _ :: _ :: _ => simp at hlr
    · simp [runEvents, MemEvent.apply, Arc.drop, hc]
  · simp only [hc, if_false]
    refine ⟨⟨_, rfl⟩, by simp, ?_, ?_⟩
    · intro l r hlr
      match l with
      | [] => simp at hlr
      | _ :: _ => simp at hlr
    · simp [runEvents, MemEvent.apply, Arc.drop, hc]

/-- Claim C10: on any reachable state with at least one live handle whose
counter is below the overflow-guard threshold, cloning and then dropping the
clone is a round trip: the clone succeeds and the subsequent drop restores
exactly the original state, so counter and payload are unchanged and the
record is not freed. -/
theorem c10_clone_drop_roundtrip {T : Type} (d : T) (ops : List ArcOp)
    (s : ArcState T) (h : runOps ops (Arc.new d) = some s)
    (hlive : 1 ≤ s.live) (hthr : s.record.refs ≤ usizeMax / 3) :
    ∃ s2, Arc.clone s = some s2 ∧ Arc.drop s2 = s ∧
      Arc.ref_count (Arc.drop s2) = Arc.ref_count s ∧
      Arc.deref (Arc.drop s2) = Arc.deref s ∧
      (Arc.drop s2).freeCount = s.freeCount := by
  obtain ⟨h1, h2, -⟩ := reach_inv d ops s h
  have hlt : s.record.refs + 1 < usizeSize := by
    have := thr_succ_lt
    omega
  have hcl : Arc.clone s = some { s with
      record := { s.record with refs := s.record.refs + 1 },
      live := s.live + 1 } := by
    unfold Arc.clone
    simp [Nat.not_lt.mpr hthr, Nat.mod_eq_of_lt hlt]
  refine ⟨_, hcl, ?_⟩
  have hback : Arc.drop { s with
      record := { s.record with refs := s.record.refs + 1 },
      live := s.live + 1 } = s := by
    rw [drop_eq _ (by simp) (by simpa using hlt)]
    obtain ⟨⟨r, dd⟩, l, f⟩ := s
    simp only at h1 hlive ⊢
    have hr1 : ¬r + 1 = 1 := by omega
    simp [hr1]
  rw [hback]
  exact ⟨rfl, rfl, rfl, rfl⟩

theorem c10_clone_drop_roundtrip_witness :
    ∃ s2, Arc.clone (Arc.new (7 : Nat)) = some s2 ∧
      Arc.drop s2 = Arc.new 7 ∧
      Arc.ref_count (Arc.drop s2) = Arc.ref_count (Arc.new 7) ∧
      Arc.deref (Arc.drop s2) = Arc.deref (Arc.new 7) ∧
      (Arc.drop s2).freeCount = (Arc.new (7 : Nat)).freeCount :=
  c10_clone_drop_roundtrip 7 [] (Arc.new 7) (by decide) (by decide)
    (by decide)
